import Mathlib

/-!
Shallow embedding of the Messenger CRM web dashboard (contacts, tags,
templates, bulk-messaging campaigns and the companion browser-extension
messaging layer), together with proofs about the embedded operations.

Each definition is translated from the repository source:
  - Firestore write helpers        src/lib/firebase.ts
  - extension hook                 src/hooks/use-extension.ts
  - sync service                   src/lib/extension-service.ts
  - app-state provider             src/context/app-state-context.tsx
  - bulk-send component            src/components/simple-bulk-send.tsx
  - campaign manager               src/components/campaigns/campaign-manager.tsx
-/

/-! ## Tag / contact data model and the batched tag deletion
    (src/lib/firebase.ts, deleteTag lines 81-99, deleteTags lines 101-119) -/

/-- A contact document: its id and the array of tag ids it carries
(`Contact.tags` in src/lib/types.ts). -/
structure Contact where
  id : String
  tags : List String
deriving DecidableEq, Repr

/-- The per-user document store slice touched by tag deletion: the set of tag
documents (by id) and the contact collection. -/
structure Store where
  tagDocs : List String
  contacts : List Contact
deriving DecidableEq, Repr

/-- One operation queued on a Firestore write batch by the tag-deletion code:
either deleting a tag document (`batch.delete(tagRef)`) or removing a tag id
from one contact document (`batch.update(contactRef, { tags: arrayRemove(tagId) })`). -/
inductive BatchOp where
  | delTag (tagId : String)
  | detach (contactId : String) (tagId : String)
deriving DecidableEq, Repr

/-- Effect of a batch operation on a single contact document: `arrayRemove`
deletes every occurrence of the id from the array; tag-document deletion does
not touch contacts. -/
def applyOpContact (c : Contact) (op : BatchOp) : Contact :=
  match op with
  | .delTag _ => c
  | .detach cid tid =>
      if c.id = cid then { c with tags := c.tags.filter (fun t => t ≠ tid) } else c

/-- Effect of a batch operation on the tag-document collection. -/
def applyOpTagDocs (td : List String) (op : BatchOp) : List String :=
  match op with
  | .delTag tid => td.filter (fun t => t ≠ tid)
  | .detach _ _ => td

/-- Effect of a batch operation on the whole store. -/
def applyOp (s : Store) (op : BatchOp) : Store :=
  match op with
  | .delTag _ => { s with tagDocs := applyOpTagDocs s.tagDocs op }
  | .detach _ _ => { s with contacts := s.contacts.map (fun c => applyOpContact c op) }

/-- Committing a Firestore write batch is atomic: either every queued
operation is applied (in order) or, when the commit fails, none is. -/
def commitBatch (s : Store) (ops : List BatchOp) (ok : Bool) : Store :=
  if ok then ops.foldl applyOp s else s

/-- The batch built by `deleteTag` (src/lib/firebase.ts lines 81-99): delete
the tag document, then for every contact whose `tags` array includes the id,
queue an `arrayRemove` update. -/
def deleteTagBatch (tagId : String) (contacts : List Contact) : List BatchOp :=
  .delTag tagId ::
    (contacts.filter (fun c => c.tags.contains tagId)).map (fun c => .detach c.id tagId)

/-- `deleteTag(uid, tagId, contacts)`: build the batch against the caller's
contact list (the live collection) and commit it once. -/
def deleteTag (s : Store) (tagId : String) (ok : Bool) : Store :=
  commitBatch s (deleteTagBatch tagId s.contacts) ok

/-- `deleteTags(uid, tagIds, contacts)` (lines 101-119): for each selected tag
id, queue the tag-document delete and the per-contact detachments (checked
against the original contact list), all on one batch, committed once. -/
def deleteTags (s : Store) (tagIds : List String) (ok : Bool) : Store :=
  commitBatch s (tagIds.foldr (fun tid acc => deleteTagBatch tid s.contacts ++ acc) []) ok

/-! ## Selection toggling
    (src/context/app-state-context.tsx, toggleGenericSelection lines 165-190) -/

/-- The `force` argument of `toggleGenericSelection`: a boolean, the literal
string toggle, or absent (`undefined`, which is falsy in the source's
conditionals). -/
inductive Force where
  | fb (b : Bool)
  | ftoggle
  | fnone
deriving DecidableEq, Repr

/-- `shouldBeSelected = force === toggle ? !isSelected : force`, with the
falsiness of `undefined` made explicit. -/
def shouldBeSelected (force : Force) (isSelected : Bool) : Bool :=
  match force with
  | .ftoggle => !isSelected
  | .fb b => b
  | .fnone => false

/-- `toggleGenericSelection`: append the id when it should be selected and is
not; filter it out when it should not be and is; otherwise leave the list
untouched. -/
def toggleGenericSelection (prev : List String) (id : String) (force : Force) :
    List String :=
  let isSelected := prev.contains id
  let should := shouldBeSelected force isSelected
  if should && !isSelected then prev ++ [id]
  else if !should && isSelected then prev.filter (fun i => i ≠ id)
  else prev

/-- Run a whole sequence of toggle calls, starting from a given selection. -/
def runToggles (init : List String) (calls : List (String × Force)) : List String :=
  calls.foldl (fun acc call => toggleGenericSelection acc call.1 call.2) init

/-! ## Campaign documents and the campaign store operations
    (src/lib/firebase.ts lines 335-512, src/lib/types.ts) -/

/-- `Campaign.status` (src/lib/types.ts line 36). -/
inductive CStatus where
  | pending
  | scheduled
  | inProgress
  | paused
  | completed
  | failed
  | cancelled
deriving DecidableEq, Repr, Fintype

/-- One entry of a campaign's append-only error log. -/
structure ErrorEntry where
  contactId : String
  contactName : String
  errorMessage : String
  timestamp : Nat
deriving DecidableEq, Repr

/-- A campaign document as stored (src/lib/types.ts lines 29-51); server
timestamps are modelled as natural numbers. -/
structure Campaign where
  name : String
  recipientContactIds : List String
  selectedTagIds : List String
  message : String
  delay : Nat
  status : CStatus
  scheduledAt : Option Nat
  startedAt : Option Nat
  completedAt : Option Nat
  totalRecipients : Nat
  successCount : Nat
  failureCount : Nat
  currentIndex : Nat
  errors : List ErrorEntry
deriving DecidableEq, Repr

/-- `CampaignData`: the creation payload, i.e. `Campaign` without id, status,
timestamps, counters and errors (src/lib/types.ts line 53). -/
structure CampaignData where
  name : String
  recipientContactIds : List String
  selectedTagIds : List String
  message : String
  delay : Nat
  scheduledAt : Option Nat
  totalRecipients : Nat
deriving DecidableEq, Repr

/-- `addCampaign` (src/lib/firebase.ts lines 335-348): the document is created
with status `scheduled` when a future send time is set and `pending`
otherwise, and with both counters, the running index and the error log
zeroed. -/
def addCampaign (d : CampaignData) : Campaign :=
  { name := d.name
    recipientContactIds := d.recipientContactIds
    selectedTagIds := d.selectedTagIds
    message := d.message
    delay := d.delay
    status := if d.scheduledAt.isSome then .scheduled else .pending
    scheduledAt := d.scheduledAt
    startedAt := none
    completedAt := none
    totalRecipients := d.totalRecipients
    successCount := 0
    failureCount := 0
    currentIndex := 0
    errors := [] }

/-- The store write performed first by `startCampaign` (src/lib/firebase.ts
lines 373-379): status to in-progress, start timestamp, running index
zeroed. -/
def startCampaignWrite (c : Campaign) (now : Nat) : Campaign :=
  { c with status := .inProgress, startedAt := some now, currentIndex := 0 }

/-- A contact as held by the extension (`GET_CONTACTS` reply); sending
requires a platform `userId`. -/
structure ExtContact where
  id : String
  userId : Option String
deriving DecidableEq, Repr

/-- Transport outcome of the `BULK_SEND` message sent by
`triggerExtensionCampaign`. -/
inductive BulkTransport where
  | lastError (msg : String)
  | response (resp : String)
deriving DecidableEq, Repr

/-- Outcome of `triggerExtensionCampaign` as observed by the caller: a silent
return when the chrome runtime is absent, a thrown/rejected error, or the
extension's response. -/
inductive DispatchResult where
  | skippedNoChrome
  | errored (msg : String)
  | ok (resp : String)
deriving DecidableEq, Repr

/-- `triggerExtensionCampaign` (src/lib/firebase.ts lines 386-449): warn and
return when chrome is unavailable; read the stored campaign document (error if
missing); filter the extension's contacts to the campaign's recipients that
carry a userId (error if none remain); then send `BULK_SEND`, rejecting on a
runtime `lastError` and resolving with the extension's response otherwise.
In no branch does it write the campaign store. -/
def triggerExtensionCampaign (chromeAvailable : Bool) (storedDoc : Option Campaign)
    (extContacts : List ExtContact) (transport : BulkTransport) : DispatchResult :=
  if !chromeAvailable then .skippedNoChrome
  else
    match storedDoc with
    | none => .errored "Campaign not found"
    | some campaignData =>
        let campaignContacts := extContacts.filter
          (fun c => campaignData.recipientContactIds.contains c.id && c.userId.isSome)
        if campaignContacts.length = 0 then .errored "No valid contacts found for campaign"
        else
          match transport with
          | .lastError msg => .errored msg
          | .response resp => .ok resp

/-- `startCampaign` (src/lib/firebase.ts lines 373-383): first the awaited
store write, then the dispatch — which reads the campaign document already in
its written (in-progress) state. The pair returned is the final stored
document together with the dispatch outcome; no branch writes the store
again. -/
def startCampaign (c : Campaign) (now : Nat) (chromeAvailable : Bool)
    (extContacts : List ExtContact) (transport : BulkTransport) :
    Campaign × DispatchResult :=
  let written := startCampaignWrite c now
  (written, triggerExtensionCampaign chromeAvailable (some written) extContacts transport)

/-- A dispatch execution in which the extension did not accept the job. -/
def dispatchFailed (r : DispatchResult) : Bool :=
  match r with
  | .ok _ => false
  | _ => true

/-- `pauseCampaign` (src/lib/firebase.ts lines 451-456). -/
def pauseCampaign (c : Campaign) : Campaign :=
  { c with status := .paused }

/-- `resumeCampaign` (src/lib/firebase.ts lines 458-463). -/
def resumeCampaign (c : Campaign) : Campaign :=
  { c with status := .inProgress }

/-- The status argument of `completeCampaign` is restricted by its TypeScript
type to the three terminal statuses (src/lib/firebase.ts line 468). -/
inductive FinalStatus where
  | completed
  | failed
  | cancelled
deriving DecidableEq, Repr

/-- Embed a terminal final status into the full status enumeration. -/
def FinalStatus.toStatus : FinalStatus → CStatus
  | .completed => .completed
  | .failed => .failed
  | .cancelled => .cancelled

/-- `completeCampaign` (src/lib/firebase.ts lines 465-477): write the terminal
status, the final counters and a completion timestamp. -/
def completeCampaign (c : Campaign) (finStatus : FinalStatus)
    (successCount failureCount : Nat) (now : Nat) : Campaign :=
  { c with
    status := finStatus.toStatus
    successCount := successCount
    failureCount := failureCount
    completedAt := some now }

/-- The progress payload written by `updateCampaignProgress`
(src/lib/firebase.ts lines 480-494). -/
structure ProgressWrite where
  currentIndex : Nat
  successCount : Nat
  failureCount : Nat
  newError : Option ErrorEntry
deriving DecidableEq, Repr

/-- Firestore `arrayUnion`: append an element unless it is already present. -/
def arrayUnionAppend (l : List ErrorEntry) (e : ErrorEntry) : List ErrorEntry :=
  if l.contains e then l else l ++ [e]

/-- `updateCampaignProgress` (src/lib/firebase.ts lines 480-512): overwrite the
running index and both counters with the reported values — unvalidated and
unclamped — and union the new error entry, if any, into the error log. -/
def updateCampaignProgress (c : Campaign) (p : ProgressWrite) : Campaign :=
  { c with
    currentIndex := p.currentIndex
    successCount := p.successCount
    failureCount := p.failureCount
    errors :=
      match p.newError with
      | some e => arrayUnionAppend c.errors e
      | none => c.errors }

/-- The invariant claimed for campaign counters: success plus failure never
exceeds the recipient total. -/
def countersWithinTotal (c : Campaign) : Prop :=
  c.successCount + c.failureCount ≤ c.totalRecipients

/-! ## The campaign status machine as realized by the UI
    (src/components/campaigns/campaign-manager.tsx lines 447-481) -/

/-- Actions offered by the campaign action menu. -/
inductive MenuAction where
  | start
  | pause
  | resume
  | edit
  | delete
deriving DecidableEq, Repr

/-- The status-gated action menu (campaign-manager.tsx lines 447-481): Start
only on pending, Pause only on in-progress, Resume only on paused, Edit on
pending or paused, Delete always. -/
def menuActions (s : CStatus) : List MenuAction :=
  (if s = .pending then [MenuAction.start] else []) ++
  (if s = .inProgress then [MenuAction.pause] else []) ++
  (if s = .paused then [MenuAction.resume] else []) ++
  (if s = .pending || s = .paused then [MenuAction.edit] else []) ++
  [MenuAction.delete]

/-- Status written by each menu action's handler: Start invokes the
`startCampaign` store write (in-progress), Pause and Resume call the
corresponding store helpers, Edit saves a `CampaignData` payload that carries
no status field, and Delete removes the document without a status
transition. -/
def menuActionStatus (a : MenuAction) (s : CStatus) : CStatus :=
  match a with
  | .start => .inProgress
  | .pause => .paused
  | .resume => .inProgress
  | .edit => s
  | .delete => s

/-- Modelled from the spec: the caller that invokes `completeCampaign` on the
Progress Poller/Listener completion signal (or on cancel of a running
campaign) is absent from src/ — `completeCampaign` is exported from
src/lib/firebase.ts and imported by the campaign manager but never invoked.
Spec section 4.5 defines finalization as the transition
in-progress → completed|failed|cancelled, so the finalize step is enabled
exactly on an in-progress campaign. -/
def finalizeEnabled (s : CStatus) : Bool :=
  s = .inProgress

/-- The terminal statuses. -/
def isTerminal (s : CStatus) : Bool :=
  s = .completed || s = .failed || s = .cancelled

/-- One transition of the campaign status machine: either a status-gated menu
action's handler, or the (spec-modelled) finalize step writing a terminal
status via `completeCampaign`. -/
def campaignStep (s t : CStatus) : Bool :=
  (menuActions s).any (fun a => menuActionStatus a s == t) ||
  (finalizeEnabled s && isTerminal t)

/-! ## Extension status prober
    (src/hooks/use-extension.ts, checkExtensionStatus lines 204-270) -/

/-- The prober's published status record. -/
structure ExtensionStatus where
  isInstalled : Bool
  isConnected : Bool
  version : Option String
deriving DecidableEq, Repr

/-- Everything that can happen to one PING probe: the chrome object or its
messaging runtime may be absent, the 2-second timer may fire with no reply,
the runtime may report a transport error (`lastError`), or a reply arrives. -/
inductive PingOutcome where
  | chromeUnavailable
  | messagingUnavailable
  | timeout
  | runtimeLastError (msg : String)
  | reply (version : Option String)
deriving DecidableEq, Repr

/-- Whether the probe got a reply. -/
def pingReplied (o : PingOutcome) : Bool :=
  match o with
  | .reply _ => true
  | _ => false

/-- `checkExtensionStatus` (use-extension.ts lines 204-270): every branch —
including the catch that absorbs the timeout rejection and the runtime
error — resolves to a status record; only a reply yields installed and
connected. The function is total: no outcome raises. -/
def checkExtensionStatus (outcome : PingOutcome) : ExtensionStatus :=
  match outcome with
  | .chromeUnavailable => { isInstalled := false, isConnected := false, version := none }
  | .messagingUnavailable => { isInstalled := false, isConnected := false, version := none }
  | .timeout => { isInstalled := false, isConnected := false, version := none }
  | .runtimeLastError _ => { isInstalled := false, isConnected := false, version := none }
  | .reply v => { isInstalled := true, isConnected := true, version := v }

/-! ## Bulk-send progress snapshots and the completion-detection effect
    (src/hooks/use-extension.ts BulkSendProgress, and
    src/components/simple-bulk-send.tsx lines 51-67) -/

/-- A progress snapshot reported by the extension. -/
structure BulkSendProgress where
  isActive : Bool
  currentIndex : Nat
  totalCount : Nat
  successCount : Nat
  failureCount : Nat
deriving DecidableEq, Repr

/-- `lastProgressState?.isActive`: falsy when the held value is null. -/
def progressActive (o : Option BulkSendProgress) : Bool :=
  match o with
  | none => false
  | some p => p.isActive

/-- `!mergedBulkSendProgress || !mergedBulkSendProgress.isActive`. -/
def progressGone (o : Option BulkSendProgress) : Bool :=
  match o with
  | none => true
  | some p => !p.isActive

/-- Firing condition of the completion effect (simple-bulk-send.tsx line 55):
the previously held snapshot was active and the incoming value is null or
inactive. -/
def completionFires (last merged : Option BulkSendProgress) : Bool :=
  progressActive last && progressGone merged

/-- Number of completion toasts produced when the effect consumes a sequence
of merged progress values, starting with `last` as the held
`lastProgressState`; after each value the held state is replaced by it
(`setLastProgressState(mergedBulkSendProgress)`). -/
def completionToastCount (last : Option BulkSendProgress)
    (updates : List (Option BulkSendProgress)) : Nat :=
  match updates with
  | [] => 0
  | u :: rest => (if completionFires last u then 1 else 0) + completionToastCount u rest

/-! ## Command dispatcher
    (src/hooks/use-extension.ts, sendBulkCampaign lines 717-779) -/

/-- What the `BULK_SEND` request can come to: the 10-second timer fires, the
runtime reports `lastError`, the callback delivers no response object, or a
reply with a status string (and optional message) arrives. -/
inductive BulkSendOutcome where
  | timeout
  | lastError (msg : String)
  | noResponse
  | reply (status : String) (message : Option String)
deriving DecidableEq, Repr

/-- How the returned promise settles. -/
inductive Settled where
  | resolved (message : String)
  | rejected (message : String)
deriving DecidableEq, Repr

/-- Result of one `sendBulkCampaign` call: how it settled, and whether it
settled before the `BULK_SEND` command and its 10-second timer were even
issued (the synchronous gate throw). -/
structure SendResult where
  settled : Settled
  preDispatch : Bool
deriving DecidableEq, Repr

/-- `sendBulkCampaign` (use-extension.ts lines 717-779): a synchronous throw
when the prober's cached status is not installed or messaging is unavailable;
otherwise reject on the 10s timeout, on a runtime `lastError`, on an absent
response, on a reply with status error, and on a reply with any other
unrecognized status; resolve only on a reply with status started. -/
def sendBulkCampaign (isInstalled messagingAvailable : Bool)
    (outcome : BulkSendOutcome) : SendResult :=
  if !isInstalled || !messagingAvailable then
    { settled := .rejected "Extension not installed or messaging not available"
      preDispatch := true }
  else
    match outcome with
    | .timeout =>
        { settled := .rejected "Extension communication timeout", preDispatch := false }
    | .lastError msg =>
        { settled := .rejected msg, preDispatch := false }
    | .noResponse =>
        { settled := .rejected "No response from extension", preDispatch := false }
    | .reply st m =>
        if st = "started" then
          { settled := .resolved "Started sending", preDispatch := false }
        else if st = "error" then
          { settled := .rejected (m.getD "Failed to start bulk send"), preDispatch := false }
        else
          { settled := .rejected "Unexpected response from extension", preDispatch := false }

/-- Whether a send call resolved (was accepted). -/
def sendAccepted (r : SendResult) : Bool :=
  match r.settled with
  | .resolved _ => true
  | .rejected _ => false

/-- A reply whose status string is started. -/
def startedReply (o : BulkSendOutcome) : Bool :=
  match o with
  | .reply st _ => st == "started"
  | _ => false

/-- The three failure cases enumerated by the claim: negative probe, explicit
error-status reply, or no reply within the command timeout. -/
def claimedRejectionCase (isInstalled : Bool) (outcome : BulkSendOutcome) : Bool :=
  !isInstalled ||
    (match outcome with
     | .timeout => true
     | .reply st _ => st == "error"
     | _ => false)

/-! ## Cancellation
    (src/hooks/use-extension.ts, cancelBulkSend lines 434-469) -/

/-- What can happen to the `CANCEL_BULK_SEND` request. The extension's reply,
when one comes, arrives either before the 5-second timer fires or after it;
in the latter case the promise has already resolved false, but the callback
still runs its side effects. -/
inductive CancelOutcome where
  | noReply
  | replyBeforeTimeout (err : Bool) (cancelled : Bool)
  | replyAfterTimeout (err : Bool) (cancelled : Bool)
deriving DecidableEq, Repr

/-- Result of one `cancelBulkSend` call: the boolean the promise resolved to
and the bulk-send progress state after the call's side effects. -/
structure CancelRun where
  resolvedValue : Bool
  progressAfter : Option BulkSendProgress
deriving DecidableEq, Repr

/-- `cancelBulkSend` (use-extension.ts lines 434-469): false when messaging is
unavailable; false when the 5s timer fires first; on a reply, `lastError`
yields false, `response?.cancelled || false` is the result, and only
cancelled:true clears the progress state. A reply arriving after the timer
cannot change the already-resolved false value, but its callback still clears
the progress state when it carries cancelled:true. -/
def cancelBulkSend (messagingAvailable : Bool) (outcome : CancelOutcome)
    (progress : Option BulkSendProgress) : CancelRun :=
  if !messagingAvailable then
    { resolvedValue := false, progressAfter := progress }
  else
    match outcome with
    | .noReply =>
        { resolvedValue := false, progressAfter := progress }
    | .replyBeforeTimeout err cancelled =>
        if err then { resolvedValue := false, progressAfter := progress }
        else
          { resolvedValue := cancelled
            progressAfter := if cancelled then none else progress }
    | .replyAfterTimeout err cancelled =>
        if err then { resolvedValue := false, progressAfter := progress }
        else
          { resolvedValue := false
            progressAfter := if cancelled then none else progress }

/-- A cancelled:true reply free of transport error, delivered before the
timer: the only outcome that resolves true. -/
def timelyCancelledReply (o : CancelOutcome) : Bool :=
  match o with
  | .replyBeforeTimeout false true => true
  | _ => false

/-- A cancelled:true reply free of transport error, whenever delivered: the
outcomes whose callback clears the progress state. -/
def cancelledReply (o : CancelOutcome) : Bool :=
  match o with
  | .replyBeforeTimeout false true => true
  | .replyAfterTimeout false true => true
  | _ => false

/-! ## Sync channel push
    (src/unnamed/part_001 AppStateProvider lines 66-93 and 193-207, and
    src/lib/extension-service.ts syncContacts/syncTags/syncTemplates) -/

/-- The three synchronized collections. -/
inductive SyncKind where
  | contacts
  | tags
  | templates
deriving DecidableEq, Repr

/-- Outcome of one push attempt. -/
inductive SyncOutcome (α : Type) where
  | skippedNotConnected
  | skippedNoSendMessage
  | pushed (kind : SyncKind) (payload : List α)
deriving DecidableEq, Repr

/-- One collection-change push: `syncWithExtension` (part_001 lines 66-93) is
invoked by an effect on every change of the contacts, tags or templates
collection with the full current collection — explicitly including the empty
one — and skips only when `isExtensionConnected` is false; the service method
it dispatches to (extension-service.ts lines 331-355) re-checks the
connection and the presence of `sendMessage`, then sends the whole array as
the payload with no truthiness or length check. -/
def syncWithExtension {α : Type} (connected sendMessageAvailable : Bool)
    (kind : SyncKind) (data : List α) : SyncOutcome α :=
  if !connected then .skippedNotConnected
  else if !sendMessageAvailable then .skippedNoSendMessage
  else .pushed kind data

/-- A small concrete store used to instantiate the tag-deletion theorems. -/
def sampleStore : Store :=
  { tagDocs := ["t1", "t2", "t3"]
    contacts := [⟨"c1", ["t1", "t2"]⟩, ⟨"c2", ["t2", "t3"]⟩] }

/-- A small concrete creation payload used to instantiate campaign theorems. -/
def sampleCampaignData : CampaignData :=
  { name := "c"
    recipientContactIds := ["c1"]
    selectedTagIds := ["t1"]
    message := "hi"
    delay := 10
    scheduledAt := none
    totalRecipients := 1 }

/-- The campaign created from `sampleCampaignData`. -/
def sampleCampaign : Campaign :=
  addCampaign sampleCampaignData

/-- A progress write whose counters exceed the recipient total of
`sampleCampaign`. -/
def overflowProgress : ProgressWrite :=
  { currentIndex := 2, successCount := 1, failureCount := 1, newError := none }

/-- A concrete active progress snapshot. -/
def activeSnapshot : BulkSendProgress :=
  { isActive := true, currentIndex := 1, totalCount := 3, successCount := 1, failureCount := 0 }

/-- A concrete inactive progress snapshot. -/
def inactiveSnapshot : BulkSendProgress :=
  { isActive := false, currentIndex := 3, totalCount := 3, successCount := 2, failureCount := 1 }

/-- Number of adjacent active-to-gone transitions in a consumed sequence of
merged progress values, with the initially held value threaded in front. -/
def transitionCount (last : Option BulkSendProgress)
    (updates : List (Option BulkSendProgress)) : Nat :=
  ((last :: updates).zip updates).countP (fun pr => completionFires pr.1 pr.2)

/-! ## Lemmas about batched writes -/

theorem applyOpContact_id (c : Contact) (op : BatchOp) :
    (applyOpContact c op).id = c.id := by
  cases op with
  | delTag _ => rfl
  | detach cid tid =>
      simp only [applyOpContact]
      split <;> rfl

theorem applyOpContact_tags_subset {t : String} {c : Contact} {op : BatchOp}
    (h : t ∈ (applyOpContact c op).tags) : t ∈ c.tags := by
  cases op with
  | delTag _ => exact h
  | detach cid tid =>
      simp only [applyOpContact] at h
      split at h
      · exact (List.mem_filter.mp h).1
      · exact h

theorem foldl_applyOpContact_tags_subset {t : String} :
    ∀ (ops : List BatchOp) (c : Contact),
      t ∈ (ops.foldl applyOpContact c).tags → t ∈ c.tags := by
  intro ops
  induction ops with
  | nil => intro c h; exact h
  | cons op rest ih =>
      intro c h
      exact applyOpContact_tags_subset (ih (applyOpContact c op) h)

theorem detach_removes {c : Contact} {tid : String} :
    tid ∉ (applyOpContact c (.detach c.id tid)).tags := by
  simp [applyOpContact, List.mem_filter]

theorem foldl_detach_mem {tid : String} :
    ∀ (ops : List BatchOp) (c : Contact),
      BatchOp.detach c.id tid ∈ ops → tid ∉ (ops.foldl applyOpContact c).tags := by
  intro ops
  induction ops with
  | nil => intro c h; cases h
  | cons op rest ih =>
      intro c h
      rcases List.mem_cons.mp h with heq | hmem
      · intro habs
        rw [List.foldl_cons, ← heq] at habs
        exact detach_removes (foldl_applyOpContact_tags_subset rest _ habs)
      · have hid := applyOpContact_id c op
        exact ih (applyOpContact c op) (by rw [hid]; exact hmem)

theorem foldl_applyOp_contacts :
    ∀ (ops : List BatchOp) (s : Store),
      (ops.foldl applyOp s).contacts =
        s.contacts.map (fun c => ops.foldl applyOpContact c) := by
  intro ops
  induction ops with
  | nil => intro s; simp
  | cons op rest ih =>
      intro s
      have hstep : (applyOp s op).contacts = s.contacts.map (fun c => applyOpContact c op) := by
        cases op with
        | delTag tid => simp [applyOp, applyOpContact]
        | detach cid tid => rfl
      calc ((op :: rest).foldl applyOp s).contacts
          = (rest.foldl applyOp (applyOp s op)).contacts := rfl
        _ = (applyOp s op).contacts.map (fun c => rest.foldl applyOpContact c) := ih _
        _ = (s.contacts.map (fun c => applyOpContact c op)).map
              (fun c => rest.foldl applyOpContact c) := by rw [hstep]
        _ = s.contacts.map (fun c => (op :: rest).foldl applyOpContact c) := by
              rw [List.map_map]; rfl

theorem applyOpTagDocs_subset {t : String} {td : List String} {op : BatchOp}
    (h : t ∈ applyOpTagDocs td op) : t ∈ td := by
  cases op with
  | delTag tid => exact (List.mem_filter.mp h).1
  | detach cid tid => exact h

theorem foldl_applyOpTagDocs_subset {t : String} :
    ∀ (ops : List BatchOp) (td : List String),
      t ∈ ops.foldl applyOpTagDocs td → t ∈ td := by
  intro ops
  induction ops with
  | nil => intro td h; exact h
  | cons op rest ih =>
      intro td h
      exact applyOpTagDocs_subset (ih (applyOpTagDocs td op) h)

theorem delTag_removes {td : List String} {tid : String} :
    tid ∉ applyOpTagDocs td (.delTag tid) := by
  simp [applyOpTagDocs, List.mem_filter]

theorem foldl_delTag_mem {tid : String} :
    ∀ (ops : List BatchOp) (td : List String),
      BatchOp.delTag tid ∈ ops → tid ∉ ops.foldl applyOpTagDocs td := by
  intro ops
  induction ops with
  | nil => intro td h; cases h
  | cons op rest ih =>
      intro td h
      rcases List.mem_cons.mp h with heq | hmem
      · intro habs
        rw [List.foldl_cons, ← heq] at habs
        exact delTag_removes (foldl_applyOpTagDocs_subset rest _ habs)
      · exact ih (applyOpTagDocs td op) hmem

theorem foldl_applyOp_tagDocs :
    ∀ (ops : List BatchOp) (s : Store),
      (ops.foldl applyOp s).tagDocs = ops.foldl applyOpTagDocs s.tagDocs := by
  intro ops
  induction ops with
  | nil => intro s; rfl
  | cons op rest ih =>
      intro s
      have hstep : (applyOp s op).tagDocs = applyOpTagDocs s.tagDocs op := by
        cases op <;> rfl
      calc ((op :: rest).foldl applyOp s).tagDocs
          = (rest.foldl applyOp (applyOp s op)).tagDocs := rfl
        _ = rest.foldl applyOpTagDocs (applyOp s op).tagDocs := ih _
        _ = rest.foldl applyOpTagDocs (applyOpTagDocs s.tagDocs op) := by rw [hstep]

theorem detach_mem_deleteTagBatch {tagId : String} {contacts : List Contact} {c : Contact}
    (hc : c ∈ contacts) (ht : tagId ∈ c.tags) :
    BatchOp.detach c.id tagId ∈ deleteTagBatch tagId contacts := by
  unfold deleteTagBatch
  refine List.mem_cons.mpr (Or.inr ?_)
  refine List.mem_map.mpr ⟨c, List.mem_filter.mpr ⟨hc, ?_⟩, rfl⟩
  simpa using ht

theorem mem_foldr_append {α β : Type} (f : α → List β) :
    ∀ (l : List α) (a : α) (b : β),
      a ∈ l → b ∈ f a → b ∈ l.foldr (fun x acc => f x ++ acc) [] := by
  intro l
  induction l with
  | nil => intro a b h; cases h
  | cons x xs ih =>
      intro a b ha hb
      refine List.mem_append.mpr ?_
      rcases List.mem_cons.mp ha with heq | hmem
      · exact Or.inl (heq ▸ hb)
      · exact Or.inr (ih a b hmem hb)

theorem deleteTag_contact_clean {s : Store} {tagId : String} {c : Contact}
    (hc : c ∈ (deleteTag s tagId true).contacts) : tagId ∉ c.tags := by
  have hfold : (deleteTag s tagId true).contacts =
      s.contacts.map (fun c => (deleteTagBatch tagId s.contacts).foldl applyOpContact c) := by
    simp only [deleteTag, commitBatch, if_pos]
    exact foldl_applyOp_contacts _ _
  rw [hfold] at hc
  rcases List.mem_map.mp hc with ⟨c0, hc0, rfl⟩
  by_cases hin : tagId ∈ c0.tags
  · exact foldl_detach_mem _ c0 (detach_mem_deleteTagBatch hc0 hin)
  · intro habs
    exact hin (foldl_applyOpContact_tags_subset _ c0 habs)

theorem deleteTags_contact_clean {s : Store} {tagIds : List String} {tid : String}
    {c : Contact} (htid : tid ∈ tagIds)
    (hc : c ∈ (deleteTags s tagIds true).contacts) : tid ∉ c.tags := by
  have hfold : (deleteTags s tagIds true).contacts =
      s.contacts.map (fun c =>
        (tagIds.foldr (fun t acc => deleteTagBatch t s.contacts ++ acc) []).foldl
          applyOpContact c) := by
    simp only [deleteTags, commitBatch, if_pos]
    exact foldl_applyOp_contacts _ _
  rw [hfold] at hc
  rcases List.mem_map.mp hc with ⟨c0, hc0, rfl⟩
  by_cases hin : tid ∈ c0.tags
  · exact foldl_detach_mem _ c0
      (mem_foldr_append _ tagIds tid _ htid (detach_mem_deleteTagBatch hc0 hin))
  · intro habs
    exact hin (foldl_applyOpContact_tags_subset _ c0 habs)

theorem deleteTag_tagDoc_gone {s : Store} {tagId : String} :
    tagId ∉ (deleteTag s tagId true).tagDocs := by
  have hfold : (deleteTag s tagId true).tagDocs =
      (deleteTagBatch tagId s.contacts).foldl applyOpTagDocs s.tagDocs := by
    simp only [deleteTag, commitBatch, if_pos]
    exact foldl_applyOp_tagDocs _ _
  rw [hfold]
  exact foldl_delTag_mem _ _ (List.mem_cons_self _ _)

theorem deleteTags_tagDoc_gone {s : Store} {tagIds : List String} {tid : String}
    (htid : tid ∈ tagIds) : tid ∉ (deleteTags s tagIds true).tagDocs := by
  have hfold : (deleteTags s tagIds true).tagDocs =
      (tagIds.foldr (fun t acc => deleteTagBatch t s.contacts ++ acc) []).foldl
        applyOpTagDocs s.tagDocs := by
    simp only [deleteTags, commitBatch, if_pos]
    exact foldl_applyOp_tagDocs _ _
  rw [hfold]
  exact foldl_delTag_mem _ _
    (mem_foldr_append _ tagIds tid _ htid (List.mem_cons_self _ _))


/-! ## Selection-toggle lemmas -/

theorem nodup_append_singleton {l : List String} {a : String} (h : l.Nodup)
    (ha : a ∉ l) : (l ++ [a]).Nodup := by
  rw [List.nodup_append_comm]
  exact List.nodup_cons.mpr ⟨ha, h⟩

theorem toggleGenericSelection_nodup (prev : List String) (id : String) (force : Force)
    (h : prev.Nodup) : (toggleGenericSelection prev id force).Nodup := by
  simp only [toggleGenericSelection]
  split
  · rename_i hcond
    refine nodup_append_singleton h ?_
    intro hmem
    simp [hmem] at hcond
  · split
    · exact h.filter _
    · exact h

theorem runToggles_nodup (calls : List (String × Force)) (init : List String)
    (h : init.Nodup) : (runToggles init calls).Nodup := by
  induction calls generalizing init with
  | nil => exact h
  | cons c rest ih => exact ih _ (toggleGenericSelection_nodup _ _ _ h)

/-! ## Claim theorems -/

/-- C10: the selected-id lists never contain duplicates under any sequence of
toggle calls starting from the empty selection; toggling an id on when it is
already selected (force true) leaves the list unchanged, and toggling an id
off (force false, or an absent force, which is falsy) when it is absent is a
no-op. -/
theorem selection_toggle_invariants :
    (∀ calls : List (String × Force), (runToggles [] calls).Nodup) ∧
    (∀ (prev : List String) (id : String), prev.contains id = true →
        toggleGenericSelection prev id (.fb true) = prev) ∧
    (∀ (prev : List String) (id : String), prev.contains id = false →
        toggleGenericSelection prev id (.fb false) = prev) ∧
    (∀ (prev : List String) (id : String), prev.contains id = false →
        toggleGenericSelection prev id .fnone = prev) := by
  refine ⟨fun calls => runToggles_nodup calls [] List.nodup_nil, ?_, ?_, ?_⟩
  · intro prev id h
    have hmem : id ∈ prev := by simpa using h
    simp [toggleGenericSelection, shouldBeSelected, hmem]
  · intro prev id h
    have hni : id ∉ prev := by simpa using h
    simp [toggleGenericSelection, shouldBeSelected, hni]
  · intro prev id h
    have hni : id ∉ prev := by simpa using h
    simp [toggleGenericSelection, shouldBeSelected, hni]

/-- Witness for C10 at concrete inputs. -/
theorem selection_toggle_invariants_witness :
    (runToggles [] [("a", Force.ftoggle), ("b", Force.ftoggle), ("a", Force.ftoggle)]).Nodup ∧
    toggleGenericSelection ["a", "b"] "a" (.fb true) = ["a", "b"] ∧
    toggleGenericSelection ["a", "b"] "c" (.fb false) = ["a", "b"] ∧
    toggleGenericSelection ["a", "b"] "c" .fnone = ["a", "b"] :=
  ⟨selection_toggle_invariants.1 _,
   selection_toggle_invariants.2.1 _ _ (by decide),
   selection_toggle_invariants.2.2.1 _ _ (by decide),
   selection_toggle_invariants.2.2.2 _ _ (by decide)⟩

/-- C2: every tag deletion — a single tag via deleteTag or a selected set via
deleteTags — issues the tag-document deletes and the per-contact detachments
as one batched write: after a successful commit no contact document contains
a deleted tag id and the deleted tag documents are gone, while a failed
commit leaves the store exactly as it was. -/
theorem tag_deletion_cascade_atomic (s : Store) (tagId : String) (tagIds : List String) :
    (∀ c ∈ (deleteTag s tagId true).contacts, tagId ∉ c.tags) ∧
    tagId ∉ (deleteTag s tagId true).tagDocs ∧
    deleteTag s tagId false = s ∧
    (∀ tid ∈ tagIds, ∀ c ∈ (deleteTags s tagIds true).contacts, tid ∉ c.tags) ∧
    (∀ tid ∈ tagIds, tid ∉ (deleteTags s tagIds true).tagDocs) ∧
    deleteTags s tagIds false = s :=
  ⟨fun _ hc => deleteTag_contact_clean hc,
   deleteTag_tagDoc_gone,
   rfl,
   fun _ ht _ hc => deleteTags_contact_clean ht hc,
   fun _ ht => deleteTags_tagDoc_gone ht,
   rfl⟩

/-- Witness for C2: on `sampleStore`, deleting tag t1 leaves contact c1 with
tags [t2] and t1 nowhere, and bulk-deleting tags t2 and t3 strips contact c2
bare. -/
theorem tag_deletion_cascade_atomic_witness :
    "t1" ∉ (Contact.mk "c1" ["t2"]).tags ∧ "t2" ∉ (Contact.mk "c2" []).tags :=
  have h := tag_deletion_cascade_atomic sampleStore "t1" ["t2", "t3"]
  ⟨h.1 (Contact.mk "c1" ["t2"]) (by decide),
   h.2.2.2.1 "t2" (by decide) (Contact.mk "c2" []) (by decide)⟩

/-- C1: starting a campaign is a dual write in a fixed order — the stored
campaign is first updated to in-progress with currentIndex zeroed and a start
timestamp, and only then is the extension dispatch invoked (reading the
already-written document); in every execution where the dispatch fails, the
stored campaign remains exactly that in-progress write, with no compensating
transition back to pending. -/
theorem startCampaign_dual_write (c : Campaign) (now : Nat) (chromeAvailable : Bool)
    (extContacts : List ExtContact) (transport : BulkTransport)
    (_hfail : dispatchFailed
      (startCampaign c now chromeAvailable extContacts transport).2 = true) :
    (startCampaign c now chromeAvailable extContacts transport).1.status = .inProgress ∧
    (startCampaign c now chromeAvailable extContacts transport).1.currentIndex = 0 ∧
    (startCampaign c now chromeAvailable extContacts transport).1.startedAt = some now ∧
    (startCampaign c now chromeAvailable extContacts transport).1 =
      startCampaignWrite c now :=
  ⟨rfl, rfl, rfl, rfl⟩

/-- Witness for C1: a dispatch that fails because the extension holds no valid
contact for the campaign still leaves the stored campaign in-progress. -/
theorem startCampaign_dual_write_witness :
    dispatchFailed (startCampaign sampleCampaign 5 true [] (.response "started")).2 = true ∧
    (startCampaign sampleCampaign 5 true [] (.response "started")).1.status = .inProgress :=
  ⟨by decide,
   (startCampaign_dual_write sampleCampaign 5 true [] (.response "started") (by decide)).1⟩

/-- C4 as stated fails on the code: `updateCampaignProgress` writes the
reported counters through without any bound check, so a progress update whose
counts exceed the total produces a stored state violating the invariant.
Concretely: a campaign created with one recipient, updated with
successCount 1 and failureCount 1. -/
theorem counters_can_exceed_total :
    ¬ countersWithinTotal (updateCampaignProgress (addCampaign sampleCampaignData)
        overflowProgress) := by
  unfold countersWithinTotal
  decide

/-- C4 amended: the counters are initialized to zero at creation, so the
invariant holds there, and `updateCampaignProgress` neither inflates the
reported counts nor touches the recipient total — hence the invariant holds
at every observed state exactly when every applied progress snapshot itself
satisfies the bound. -/
theorem counters_within_total_conditional (d : CampaignData) (c : Campaign)
    (p : ProgressWrite)
    (h : p.successCount + p.failureCount ≤ c.totalRecipients) :
    countersWithinTotal (addCampaign d) ∧
    countersWithinTotal (updateCampaignProgress c p) ∧
    (updateCampaignProgress c p).totalRecipients = c.totalRecipients := by
  refine ⟨?_, h, rfl⟩
  show 0 + 0 ≤ d.totalRecipients
  exact Nat.zero_le _

/-- Witness for the amended C4 at a bounded concrete update. -/
theorem counters_within_total_conditional_witness :
    countersWithinTotal (updateCampaignProgress sampleCampaign
      { currentIndex := 1, successCount := 1, failureCount := 0, newError := none }) :=
  (counters_within_total_conditional sampleCampaignData sampleCampaign
    { currentIndex := 1, successCount := 1, failureCount := 0, newError := none }
    (by decide)).2.1

/-- C8: in the campaign status machine realized by the status-gated action
menu together with the (spec-modelled, in-progress-gated) finalize step, no
transition out of pending or scheduled reaches a terminal status, and every
transition from a non-terminal status into a terminal one starts at
in-progress (the only steps a terminal status itself admits are the
status-preserving Delete/Edit handlers). -/
theorem terminal_only_from_in_progress :
    (∀ t : CStatus, (campaignStep .pending t && isTerminal t) = false) ∧
    (∀ t : CStatus, (campaignStep .scheduled t && isTerminal t) = false) ∧
    (∀ s t : CStatus,
      (campaignStep s t && isTerminal t && !isTerminal s && !(s == .inProgress)) = false) := by
  refine ⟨?_, ?_, ?_⟩ <;> decide

/-- C6: the status prober is a total function of the probe outcome — it never
raises — and it reports installed/connected exactly when a reply arrived:
a timeout, a runtime transport error, and an absent chrome or messaging
runtime all resolve to the not-installed, not-connected status. -/
theorem prober_degrades_without_throwing :
    (∀ o : PingOutcome,
        (checkExtensionStatus o).isInstalled = pingReplied o ∧
        (checkExtensionStatus o).isConnected = pingReplied o) ∧
    checkExtensionStatus .timeout =
      { isInstalled := false, isConnected := false, version := none } ∧
    (∀ msg, checkExtensionStatus (.runtimeLastError msg) =
      { isInstalled := false, isConnected := false, version := none }) ∧
    checkExtensionStatus .chromeUnavailable =
      { isInstalled := false, isConnected := false, version := none } ∧
    checkExtensionStatus .messagingUnavailable =
      { isInstalled := false, isConnected := false, version := none } := by
  refine ⟨fun o => ?_, rfl, fun msg => rfl, rfl, rfl⟩
  cases o <;> exact ⟨rfl, rfl⟩

/-- C7: whenever the connection check passes and the messaging runtime is
present, a collection push delivers the full replacement payload for every
collection kind and every data array — the empty array included; no
truthiness or length check drops it. -/
theorem sync_push_delivers_empty {α : Type} :
    (∀ (kind : SyncKind) (data : List α),
        syncWithExtension true true kind data = .pushed kind data) ∧
    (∀ kind : SyncKind, syncWithExtension true true kind ([] : List α) = .pushed kind []) :=
  ⟨fun _ _ => rfl, fun _ => rfl⟩

theorem completionToastCount_eq_transitionCount :
    ∀ (updates : List (Option BulkSendProgress)) (last : Option BulkSendProgress),
      completionToastCount last updates = transitionCount last updates := by
  intro updates
  induction updates with
  | nil => intro last; rfl
  | cons u rest ih =>
      intro last
      have h1 : completionToastCount last (u :: rest) =
          (if completionFires last u then 1 else 0) + completionToastCount u rest := rfl
      have h2 : transitionCount last (u :: rest) =
          transitionCount u rest + (if completionFires last u then 1 else 0) := by
        simp only [transitionCount, List.zip_cons_cons, List.countP_cons]
      rw [h1, h2, ih u, Nat.add_comm]

/-- C3: over any consumed sequence of merged progress values the completion
toast fires exactly as many times as there are true active-to-inactive (or
active-to-cleared) transitions; an unchanged value — as in the effect's echo
re-run — never fires; the sequence active, active, inactive fires exactly
once and the lone inactive snapshot, with no prior active one, never
fires. -/
theorem completion_fires_only_on_transition :
    (∀ (last : Option BulkSendProgress) (updates : List (Option BulkSendProgress)),
        completionToastCount last updates = transitionCount last updates) ∧
    (∀ u : Option BulkSendProgress, completionFires u u = false) ∧
    completionToastCount none
      [some activeSnapshot, some activeSnapshot, some inactiveSnapshot] = 1 ∧
    completionToastCount none [some inactiveSnapshot] = 0 := by
  refine ⟨fun last updates => completionToastCount_eq_transitionCount updates last,
    fun u => ?_, by decide, by decide⟩
  cases u with
  | none => rfl
  | some p =>
      show (p.isActive && !p.isActive) = false
      cases p.isActive <;> rfl

/-- C5 as stated fails on the code: with a positive probe and an available
messaging runtime, a reply that arrives in time with a status that is neither
started nor error — here the concrete reply status ok — is still rejected
(Unexpected response), a rejection outside the three cases the claim
enumerates. -/
theorem dispatcher_rejects_beyond_three_cases :
    (sendBulkCampaign true true (.reply "ok" none)).settled =
      .rejected "Unexpected response from extension" ∧
    claimedRejectionCase true (.reply "ok" none) = false := by
  refine ⟨?_, ?_⟩ <;> decide

/-- C5 amended: the dispatcher rejects when the prober's cached status is
negative (synchronously, before the command and its 10s timer are issued —
so without waiting for the command timeout), and otherwise accepts exactly
the replies whose status is started; every other outcome — the 10s timeout,
a runtime transport error, an absent response object, an explicit
error-status reply, and a reply with any unrecognized status — is
rejected. -/
theorem dispatcher_rejection_characterization :
    (∀ (msgAvail : Bool) (o : BulkSendOutcome),
        (sendBulkCampaign false msgAvail o).preDispatch = true ∧
        sendAccepted (sendBulkCampaign false msgAvail o) = false) ∧
    (∀ (inst msgAvail : Bool) (o : BulkSendOutcome),
        sendAccepted (sendBulkCampaign inst msgAvail o) =
          (inst && msgAvail && startedReply o)) := by
  constructor
  · intro msgAvail o
    exact ⟨rfl, rfl⟩
  · intro inst msgAvail o
    cases inst with
    | false => cases o <;> rfl
    | true =>
        cases msgAvail with
        | false => cases o <;> rfl
        | true =>
            cases o with
            | timeout => rfl
            | lastError msg => rfl
            | noResponse => rfl
            | reply st m =>
                show sendAccepted (sendBulkCampaign true true (.reply st m)) =
                  startedReply (.reply st m)
                by_cases hst : st = "started"
                · simp [sendBulkCampaign, sendAccepted, startedReply, hst]
                · by_cases herr : st = "error"
                  · simp [sendBulkCampaign, sendAccepted, startedReply, hst, herr]
                  · simp [sendBulkCampaign, sendAccepted, startedReply, hst, herr]

/-- C9 as stated fails on the code: when the extension's cancelled-true reply
arrives only after the 5-second timer has fired, the promise has already
resolved false, yet the reply callback still clears the local bulk-send
progress state — a false outcome that mutates the progress state. -/
theorem late_cancel_reply_clears_progress :
    (cancelBulkSend true (.replyAfterTimeout false true) (some activeSnapshot)).resolvedValue
      = false ∧
    (cancelBulkSend true (.replyAfterTimeout false true) (some activeSnapshot)).progressAfter
      = none := ⟨rfl, rfl⟩

/-- C9 amended: `cancelBulkSend` is total and never rejects; it resolves true
exactly when a transport-error-free cancelled-true reply arrives before the
timeout, and the progress state is cleared exactly when such a reply arrives
at all — before the timeout (a true outcome) or after it (the call has
already resolved false); in every other outcome (runtime error, reply
without cancelled-true, no reply within 5s, messaging unavailable) it
resolves false and leaves the progress state unchanged. -/
theorem cancel_outcome_characterization :
    ∀ (msgAvail : Bool) (o : CancelOutcome) (p : Option BulkSendProgress),
      (cancelBulkSend msgAvail o p).resolvedValue =
        (msgAvail && timelyCancelledReply o) ∧
      (cancelBulkSend msgAvail o p).progressAfter =
        (if msgAvail && cancelledReply o then none else p) := by
  intro msgAvail o p
  cases msgAvail with
  | false => cases o <;> exact ⟨rfl, rfl⟩
  | true =>
      cases o with
      | noReply => exact ⟨rfl, rfl⟩
      | replyBeforeTimeout err cancelled =>
          cases err <;> cases cancelled <;> exact ⟨rfl, rfl⟩
      | replyAfterTimeout err cancelled =>
          cases err <;> cases cancelled <;> exact ⟨rfl, rfl⟩
